import Mathlib

/-!
# Status / StatusReport capability bridges of the plugin SDK

Shallow embedding of `internal/plugin/status.go` and
`internal/plugin/statusreport.go`.

The Go code is effectful: it issues remote calls, calls into the held
implementation object, allocates `pluginargs.Internal` / `pluginargs.Cleanup`
values and runs deferred `Close` calls.  The embedding threads an explicit
`World` through every function.  The world records

* `trace`     – every observable call, in the order it was made;
* `internals` – the heap of allocated `pluginargs.Internal` values;
* `ledgers`   – the heap of allocated `pluginargs.Cleanup` ledgers.

A pointer is an index into the corresponding heap; an index outside the heap
plays the role of Go's `nil`.  Collaborators outside the two files (the gRPC
client, the implementation object, `funcspec.Spec`, `callDynamicFunc2`) are
parameters whose answer may depend on the whole history (`trace`) so far.
A Go function either returns or panics; both are modelled (`GoResult`):
panics raised by the two files themselves (a nil response dereferenced, a
failed single-value type assertion, a nil `internal` or receiver dereferenced)
are kept, and a deferred call runs on both ways out.  The collaborators are
taken to return, and the values gRPC always supplies to a handler (the server
struct, its embedded `base`, the request message, the `Client` stub of a
non-nil client) are taken non-nil.
-/

namespace Plugin

/-! ## Data model -/

/-- Pointers are heap indices. -/
abbrev Ptr := Nat

/-- Go `error` values.  A plain error is identified by a code; `aggregate`
is the combined error of several failed release actions. -/
inductive GoError where
  | code (n : Nat)
  | aggregate (codes : List Nat)
  deriving DecidableEq, Repr

/-- Why a Go function aborted instead of returning. -/
inductive Panic where
  | nilDeref
  | typeAssertion
  deriving DecidableEq, Repr

/-- Outcome of running a Go function: it returns a value or it panics. -/
inductive GoResult (α : Type) where
  | ret (a : α)
  | panic (p : Panic)
  deriving DecidableEq, Repr

/-- Go `context.Context`: `context.Background()` or a request context. -/
inductive Context where
  | background
  | request (id : Nat)
  deriving DecidableEq, Repr

/-- Message `pb.ImplementsResp`. -/
structure ImplementsResp where
  Implements : Bool
  deriving DecidableEq, Repr

/-- Message `pb.FuncSpec`: the declared parameters, as type identifiers. -/
structure FuncSpec where
  Args : List Nat
  deriving DecidableEq, Repr

/-- Go `funcspec.Args`: the argument values of one invocation. -/
abbrev Args := List Nat

/-- Message `pb.FuncSpec_Args`. -/
structure FuncSpec_Args where
  Args : Args
  deriving DecidableEq, Repr

/-- Message `empty.Empty`. -/
structure Empty where
  deriving DecidableEq, Repr

/-- Observable calls, logged in the order they are made. -/
inductive Event where
  | rpcIsStatus (ctx : Context)
  | rpcStatusSpec (ctx : Context)
  | rpcStatus (ctx : Context) (args : Args)
  | rpcIsStatusReport (ctx : Context)
  | rpcStatusReportSpec (ctx : Context)
  | rpcStatusReport (ctx : Context) (args : Args)
  | implStatusFunc
  | implStatusReportFunc
  | funcspecSpec (internal : Ptr)
  | callDynamicFunc2 (internal : Ptr)
  | cleanupClose (ledger : Ptr)
  | release (id : Nat)
  deriving DecidableEq, Repr

/-- Modelled from the spec: a release action of the Cleanup Ledger
(`pluginargs` is not among the source files).  Running it may fail. -/
structure Release where
  id : Nat
  fails : Option Nat
  deriving DecidableEq, Repr

/-- Modelled from the spec: `pluginargs.Cleanup`, the Cleanup Ledger, "an
ordered sequence of release callbacks; append-only during a call, drained
when the call finishes".  The type is declared outside the source files. -/
structure Cleanup where
  pending : List Release
  deriving DecidableEq, Repr

/-- Modelled from the spec: `pluginargs.Internal` (declared outside the source
files); the three fields are the ones the source files set. -/
structure Internal where
  Broker : Nat
  Mappers : List Nat
  Cleanup : Ptr
  deriving DecidableEq, Repr

/-- The state threaded through every call. -/
structure World where
  trace : List Event
  internals : List Internal
  ledgers : List Cleanup
  deriving DecidableEq, Repr

/-- Record one observable call. -/
def World.log (w : World) (e : Event) : World :=
  { w with trace := w.trace ++ [e] }

/-- Allocation `&pluginargs.Cleanup{}`: a fresh, empty ledger. -/
def World.newCleanup (w : World) : Ptr × World :=
  (w.ledgers.length, { w with ledgers := w.ledgers ++ [{ pending := [] }] })

/-- Allocation `&pluginargs.Internal{...}`. -/
def World.newInternal (w : World) (v : Internal) : Ptr × World :=
  (w.internals.length, { w with internals := w.internals ++ [v] })

/-- Append release actions to a ledger (`Defer` of the spec, section 4.5). -/
def World.register (w : World) (ledger : Ptr) (rs : List Release) : World :=
  match w.ledgers[ledger]? with
  | none => w
  | some l => { w with ledgers := w.ledgers.set ledger { pending := l.pending ++ rs } }

/-- Append release actions to the ledger that an `Internal` points to. -/
def World.registerVia (w : World) (internal : Ptr) (rs : List Release) : World :=
  match w.internals[internal]? with
  | none => w
  | some i => w.register i.Cleanup rs

/-- Modelled from the spec: `(*pluginargs.Cleanup).Close`, which is outside the
source files.  Section 4.5: `Close() -> error?` is the "aggregate of release
errors, must not abort before attempting every pending action", and a second
`Close` is a no-op.  The call itself is logged; a nil receiver panics. -/
def Cleanup.Close (p : Ptr) (w : World) : GoResult (Option GoError) × World :=
  match w.ledgers[p]? with
  | none => (.panic .nilDeref, w.log (.cleanupClose p))
  | some l =>
    let failed := l.pending.filterMap (fun r => r.fails)
    (.ret (if failed = [] then none else some (.aggregate failed)),
     { trace := w.trace ++ [Event.cleanupClose p] ++ l.pending.map (fun r => Event.release r.id),
       internals := w.internals,
       ledgers := w.ledgers.set p { pending := [] } })

/-- Go `defer ledger.Close()`: after the body has returned or panicked the
deferred call runs; its return value is dropped.  If the deferred call itself
panics, that panic is what leaves the function. -/
def deferClose {α : Type} (ledger : Ptr) (body : GoResult α × World) : GoResult α × World :=
  match Cleanup.Close ledger body.2 with
  | (.panic p, w) => (.panic p, w)
  | (.ret _, w) => (body.1, w)

/-! ## Function values -/

/-- Modelled from the spec: the wrapper built by `funcspec.Func(spec, cb, args...)`
(outside the source files).  Section 2: "a local wrapper function whose own
parameters are satisfied ... against context-local values (logger, broker
handle, cleanup ledger)".  The wrapper keeps the callback and the values it
was built with. -/
structure FuncspecFunc where
  spec : Option FuncSpec
  cb : Context → Args → Ptr → World → GoResult (Option GoError) × World
  logger : Nat
  internal : Ptr

/-- Outcome of argument resolution (spec, section 4.3, `Resolve(...) ->
concrete_args | error`). -/
inductive Resolved where
  | ok (args : Args)
  | failure (err : GoError)

/-- What one run of the Argument Resolver does: the release actions declared
by the converters it ran, and its outcome. -/
structure Resolution where
  registered : List Release
  result : Resolved

/-- The Argument Resolver behind an invocation of a `funcspec.Func` wrapper
(outside the source files), taken as a parameter: from the history, the
wrapper's spec and the values the invoker supplies (directly or through its
converters) it either produces the arguments of the callback or fails. -/
abbrev Resolver := List Event → Option FuncSpec → Args → Resolution

/-- Modelled from the spec: invoking the wrapper built by `funcspec.Func`
(outside the source files).  Sections 4.3 and 7: the declared parameters of
the wrapper's spec are resolved against the supplied values; the release
actions of the converters that ran are appended to the Cleanup Ledger
"regardless of whether the overall resolution or the final call later fails";
on a resolution failure "the call never reaches invocation" and the failure is
returned; otherwise the callback runs with the caller's context, the resolved
arguments and the typed value (`*pluginargs.Internal`) the wrapper was built
with (section 2). -/
def FuncspecFunc.invoke (R : Resolver) (f : FuncspecFunc) (ctx : Context) (supplied : Args)
    (w : World) : GoResult (Option GoError) × World :=
  let r := R w.trace f.spec supplied
  let w := w.registerVia f.internal r.registered
  match r.result with
  | .failure err => (.ret (some err), w)
  | .ok args => f.cb ctx args f.internal w

/-- The ledger an invocation of the wrapper receives in world `w`: the
`Cleanup` field of the `pluginargs.Internal` handed to the callback. -/
def FuncspecFunc.ledger (f : FuncspecFunc) (w : World) : Option Ptr :=
  (w.internals[f.internal]?).map (fun i => i.Cleanup)

/-- Non-nil function values that travel in a Go `interface{}`.
`funcErr e` is the value built by the helper `funcErr(e)` and `funcspecFunc f`
the value built by `funcspec.Func` (both helpers are outside the source
files; their results are represented by the call that built them).
`provider id` is a function written by the plugin author. -/
inductive FuncValue where
  | funcErr (err : GoError)
  | funcspecFunc (f : FuncspecFunc)
  | provider (id : Nat)

/-- Go `interface{}` holding a function value; `none` is the nil interface. -/
abbrev Iface := Option FuncValue

/-! ## status.go: caller side -/

/-- Interface `statusProtoClient`: the three remote calls.  Each answer is
the Go pair `(response, error)` and may depend on the history so far. -/
structure statusProtoClient where
  IsStatus : List Event → Context → Option ImplementsResp × Option GoError
  StatusSpec : List Event → Context → Option FuncSpec × Option GoError
  Status : List Event → Context → FuncSpec_Args → Option Empty × Option GoError

/-- Struct `statusClient`. -/
structure statusClient where
  Client : statusProtoClient
  Logger : Nat
  Broker : Nat
  Mappers : List Nat

/-- Method `(*statusClient).Implements`; the receiver may be nil (`none`). -/
def statusClient.Implements (c : Option statusClient) (ctx : Context) (w : World) :
    GoResult (Bool × Option GoError) × World :=
  match c with
  | none => (.ret (false, none), w)
  | some c =>
    let r := c.Client.IsStatus w.trace ctx
    let w := w.log (.rpcIsStatus ctx)
    match r.2 with
    | some err => (.ret (false, some err), w)
    | none =>
      match r.1 with
      | none => (.panic .nilDeref, w)
      | some resp => (.ret (resp.Implements, none), w)

/-- The statements of `(*statusClient).status` that follow the `defer`:
the remote call, whose error is the return value. -/
def statusClient.status.body (c : Option statusClient) (ctx : Context) (args : Args)
    (w : World) : GoResult (Option GoError) × World :=
  match c with
  | none => (.panic .nilDeref, w)
  | some c =>
    let r := c.Client.Status w.trace ctx { Args := args }
    (.ret r.2, w.log (.rpcStatus ctx args))

/-- Method `(*statusClient).status`, the callback handed to `funcspec.Func`.
The `defer` statement reads `internal.Cleanup` (a nil `internal` panics
there), the rest of the function runs, then the deferred `Close`. -/
def statusClient.status (c : Option statusClient) (ctx : Context) (args : Args)
    (internal : Ptr) (w : World) : GoResult (Option GoError) × World :=
  match w.internals[internal]? with
  | none => (.panic .nilDeref, w)
  | some i => deferClose i.Cleanup (statusClient.status.body c ctx args w)

/-- Method `(*statusClient).StatusFunc`. -/
def statusClient.StatusFunc (c : Option statusClient) (w : World) : GoResult Iface × World :=
  match statusClient.Implements c Context.background w with
  | (.panic p, w) => (.panic p, w)
  | (.ret (impl, err), w) =>
    match err with
    | some err => (.ret (some (.funcErr err)), w)
    | none =>
      if !impl then (.ret none, w)
      else
        match c with
        | none => (.panic .nilDeref, w)
        | some cc =>
          let r := cc.Client.StatusSpec w.trace Context.background
          let w := w.log (.rpcStatusSpec Context.background)
          match r.2 with
          | some err => (.ret (some (.funcErr err)), w)
          | none =>
            let l := w.newCleanup
            let i := l.2.newInternal { Broker := cc.Broker, Mappers := cc.Mappers, Cleanup := l.1 }
            (.ret (some (.funcspecFunc
              { spec := r.1, cb := statusClient.status c, logger := cc.Logger, internal := i.1 })),
             i.2)

/-! ## status.go: provider side -/

/-- The method set of the object held in `Impl` (a Go `interface{}`).  A field
is `some m` when the object's dynamic type has that method, and `m` is what a
call of it returns (nil or a function value), possibly depending on the
history.  The contracts `component.Status` / `component.StatusReport` are
declared outside the source files: one method each, `StatusFunc()
interface{}` and `StatusReportFunc() interface{}`. -/
structure Methods where
  StatusFunc : Option (List Event → Iface)
  StatusReportFunc : Option (List Event → Iface)

/-- Type assertion `x.(component.Status)` on an `interface{}` (`none` is the
nil interface): the method value when the contract is satisfied. -/
def assertStatus (x : Option Methods) : Option (List Event → Iface) :=
  match x with
  | none => none
  | some m => m.StatusFunc

/-- Type assertion `x.(component.StatusReport)`. -/
def assertStatusReport (x : Option Methods) : Option (List Event → Iface) :=
  match x with
  | none => none
  | some m => m.StatusReportFunc

/-- Struct `base`, embedded in every server (declared outside the source
files); the fields are the ones the source files read. -/
structure base where
  Logger : Nat
  Broker : Nat
  Mappers : List Nat

/-- Modelled from the spec: `(*base).internal()`, outside the source files.
Section 4.6: "each invocation is independent, its own Typed Value Set and
Cleanup Ledger": a new `pluginargs.Internal` with a new, empty ledger. -/
def base.internal (b : base) (w : World) : Ptr × World :=
  let l := w.newCleanup
  l.2.newInternal { Broker := b.Broker, Mappers := b.Mappers, Cleanup := l.1 }

/-- What one call of `callDynamicFunc2` does: the release actions it
registered with the ledger while resolving arguments, the value returned by
the target function, and the error. -/
structure DynResult where
  registered : List Release
  value : Option Nat
  err : Option GoError

/-- Helpers of the repository that are outside the source files, taken as
parameters: what `funcspec.Spec(fn, converters, logger, internal)` answers for
a function it can introspect, and `callDynamicFunc2(fn, args, converters,
internal, ctx)`. -/
structure Helpers where
  funcspecSpec : List Event → Iface → List Nat → Nat → Ptr → Option FuncSpec × Option GoError
  callDynamicFunc2 : List Event → Iface → Args → List Nat → Ptr → Context → DynResult

/-- The error of a provider that cannot produce a function value for a
capability (spec, section 7, "specification-inconsistency error"). -/
def errSpecInconsistency : GoError := .code 1

/-- Modelled from the spec: `funcspec.Spec(fn, args...)`, outside the source
files.  Section 4.2: "Must fail if the provider ... cannot produce a function
value for it", an error and no spec; section 7: "surfaced as an error, never
silently downgraded".  For a non-nil function the introspection is the
parameter `Helpers.funcspecSpec`. -/
def funcspec.Spec (H : Helpers) (history : List Event) (fn : Iface) (converters : List Nat)
    (logger : Nat) (internal : Ptr) : Option FuncSpec × Option GoError :=
  match fn with
  | none => (none, some errSpecInconsistency)
  | some _ => H.funcspecSpec history fn converters logger internal

/-- Struct `statusServer`. -/
structure statusServer where
  base : base
  Impl : Option Methods

/-- Method `(*statusServer).IsStatus`.  `ok && d.StatusFunc() != nil` is
short-circuit: the method is only called when the assertion succeeded. -/
def statusServer.IsStatus (s : statusServer) (_ctx : Context) (_empty : Empty) (w : World) :
    GoResult (Option ImplementsResp × Option GoError) × World :=
  match assertStatus s.Impl with
  | none => (.ret (some { Implements := false }, none), w)
  | some d =>
    let f := d w.trace
    (.ret (some { Implements := f.isSome }, none), w.log .implStatusFunc)

/-- Method `(*statusServer).StatusSpec`.  The type assertion is the
single-value form, which panics when it fails. -/
def statusServer.StatusSpec (H : Helpers) (s : statusServer) (_ctx : Context) (_args : Empty)
    (w : World) : GoResult (Option FuncSpec × Option GoError) × World :=
  match assertStatus s.Impl with
  | none => (.panic .typeAssertion, w)
  | some d =>
    let f := d w.trace
    let w := w.log .implStatusFunc
    let i := s.base.internal w
    (.ret (funcspec.Spec H i.2.trace f s.base.Mappers s.base.Logger i.1),
     i.2.log (.funcspecSpec i.1))

/-- The statements of `(*statusServer).Status` that follow the `defer`:
the single-value type assertion (which panics when it fails), the call of
`StatusFunc`, the one call of `callDynamicFunc2` (during which converters may
register release actions with the ledger of `internal`), and the `if err !=
nil` that picks the return values. -/
def statusServer.Status.body (H : Helpers) (s : statusServer) (ctx : Context)
    (args : FuncSpec_Args) (internal : Ptr) (w : World) :
    GoResult (Option Empty × Option GoError) × World :=
  match assertStatus s.Impl with
  | none => (.panic .typeAssertion, w)
  | some d =>
    let f := d w.trace
    let w := w.log .implStatusFunc
    let r := H.callDynamicFunc2 w.trace f args.Args s.base.Mappers internal ctx
    let w := (w.log (.callDynamicFunc2 internal)).registerVia internal r.registered
    match r.err with
    | some err => (.ret (none, some err), w)
    | none => (.ret (some {}, none), w)

/-- Method `(*statusServer).Status`: `internal := s.internal()`, the `defer`
of `internal.Cleanup.Close()`, the rest of the function, then the deferred
call. -/
def statusServer.Status (H : Helpers) (s : statusServer) (ctx : Context) (args : FuncSpec_Args)
    (w : World) : GoResult (Option Empty × Option GoError) × World :=
  let i := s.base.internal w
  match i.2.internals[i.1]? with
  | none => (.panic .nilDeref, i.2)
  | some internal => deferClose internal.Cleanup (statusServer.Status.body H s ctx args i.1 i.2)

/-! ## statusreport.go: caller side -/

/-- Interface `statusReportProtoClient`. -/
structure statusReportProtoClient where
  IsStatusReport : List Event → Context → Option ImplementsResp × Option GoError
  StatusReportSpec : List Event → Context → Option FuncSpec × Option GoError
  StatusReport : List Event → Context → FuncSpec_Args → Option Empty × Option GoError

/-- Struct `statusReportClient`. -/
structure statusReportClient where
  Client : statusReportProtoClient
  Logger : Nat
  Broker : Nat
  Mappers : List Nat

/-- Method `(*statusReportClient).Implements`. -/
def statusReportClient.Implements (c : Option statusReportClient) (ctx : Context) (w : World) :
    GoResult (Bool × Option GoError) × World :=
  match c with
  | none => (.ret (false, none), w)
  | some c =>
    let r := c.Client.IsStatusReport w.trace ctx
    let w := w.log (.rpcIsStatusReport ctx)
    match r.2 with
    | some err => (.ret (false, some err), w)
    | none =>
      match r.1 with
      | none => (.panic .nilDeref, w)
      | some resp => (.ret (resp.Implements, none), w)

/-- The statements of `(*statusReportClient).statusReport` that follow the
`defer`. -/
def statusReportClient.statusReport.body (c : Option statusReportClient) (ctx : Context)
    (args : Args) (w : World) : GoResult (Option GoError) × World :=
  match c with
  | none => (.panic .nilDeref, w)
  | some c =>
    let r := c.Client.StatusReport w.trace ctx { Args := args }
    (.ret r.2, w.log (.rpcStatusReport ctx args))

/-- Method `(*statusReportClient).statusReport`. -/
def statusReportClient.statusReport (c : Option statusReportClient) (ctx : Context) (args : Args)
    (internal : Ptr) (w : World) : GoResult (Option GoError) × World :=
  match w.internals[internal]? with
  | none => (.panic .nilDeref, w)
  | some i => deferClose i.Cleanup (statusReportClient.statusReport.body c ctx args w)

/-- Method `(*statusReportClient).StatusReportFunc`. -/
def statusReportClient.StatusReportFunc (c : Option statusReportClient) (w : World) :
    GoResult Iface × World :=
  match statusReportClient.Implements c Context.background w with
  | (.panic p, w) => (.panic p, w)
  | (.ret (impl, err), w) =>
    match err with
    | some err => (.ret (some (.funcErr err)), w)
    | none =>
      if !impl then (.ret none, w)
      else
        match c with
        | none => (.panic .nilDeref, w)
        | some cc =>
          let r := cc.Client.StatusReportSpec w.trace Context.background
          let w := w.log (.rpcStatusReportSpec Context.background)
          match r.2 with
          | some err => (.ret (some (.funcErr err)), w)
          | none =>
            let l := w.newCleanup
            let i := l.2.newInternal { Broker := cc.Broker, Mappers := cc.Mappers, Cleanup := l.1 }
            (.ret (some (.funcspecFunc
              { spec := r.1, cb := statusReportClient.statusReport c, logger := cc.Logger,
                internal := i.1 })),
             i.2)

/-! ## statusreport.go: provider side -/

/-- Struct `statusReportServer`. -/
structure statusReportServer where
  base : base
  Impl : Option Methods

/-- Method `(*statusReportServer).IsStatusReport`. -/
def statusReportServer.IsStatusReport (s : statusReportServer) (_ctx : Context) (_empty : Empty)
    (w : World) : GoResult (Option ImplementsResp × Option GoError) × World :=
  match assertStatusReport s.Impl with
  | none => (.ret (some { Implements := false }, none), w)
  | some d =>
    let f := d w.trace
    (.ret (some { Implements := f.isSome }, none), w.log .implStatusReportFunc)

/-- Method `(*statusReportServer).StatusReportSpec`. -/
def statusReportServer.StatusReportSpec (H : Helpers) (s : statusReportServer) (_ctx : Context)
    (_args : Empty) (w : World) : GoResult (Option FuncSpec × Option GoError) × World :=
  match assertStatusReport s.Impl with
  | none => (.panic .typeAssertion, w)
  | some d =>
    let f := d w.trace
    let w := w.log .implStatusReportFunc
    let i := s.base.internal w
    (.ret (funcspec.Spec H i.2.trace f s.base.Mappers s.base.Logger i.1),
     i.2.log (.funcspecSpec i.1))

/-- The statements of `(*statusReportServer).StatusReport` that follow the
`defer`. -/
def statusReportServer.StatusReport.body (H : Helpers) (s : statusReportServer) (ctx : Context)
    (args : FuncSpec_Args) (internal : Ptr) (w : World) :
    GoResult (Option Empty × Option GoError) × World :=
  match assertStatusReport s.Impl with
  | none => (.panic .typeAssertion, w)
  | some d =>
    let f := d w.trace
    let w := w.log .implStatusReportFunc
    let r := H.callDynamicFunc2 w.trace f args.Args s.base.Mappers internal ctx
    let w := (w.log (.callDynamicFunc2 internal)).registerVia internal r.registered
    match r.err with
    | some err => (.ret (none, some err), w)
    | none => (.ret (some {}, none), w)

/-- Method `(*statusReportServer).StatusReport`. -/
def statusReportServer.StatusReport (H : Helpers) (s : statusReportServer) (ctx : Context)
    (args : FuncSpec_Args) (w : World) : GoResult (Option Empty × Option GoError) × World :=
  let i := s.base.internal w
  match i.2.internals[i.1]? with
  | none => (.panic .nilDeref, i.2)
  | some internal =>
    deferClose internal.Cleanup (statusReportServer.StatusReport.body H s ctx args i.1 i.2)

/-! ## Observations on the trace -/

/-- The event is a call of `Close` on some ledger. -/
def Event.isClose : Event → Bool
  | .cleanupClose _ => true
  | _ => false

/-- The event is the run of a release action (inside `Close`). -/
def Event.isRelease : Event → Bool
  | .release _ => true
  | _ => false

/-- The event is a call of `callDynamicFunc2`. -/
def Event.isDynamicCall : Event → Bool
  | .callDynamicFunc2 _ => true
  | _ => false

/-! ## Concrete collaborators used to exercise the theorems -/

/-- A remote end that answers the probe with the given flag, then serves a
one-parameter spec, and whose call succeeds. -/
def answeringClient (flag : Bool) : statusProtoClient where
  IsStatus := fun _ _ => (some { Implements := flag }, none)
  StatusSpec := fun _ _ => (some { Args := [1] }, none)
  Status := fun _ _ _ => (some {}, none)

/-- A remote end on which every call fails with a transport error. -/
def brokenClient (n : Nat) : statusProtoClient where
  IsStatus := fun _ _ => (none, some (.code n))
  StatusSpec := fun _ _ => (none, some (.code n))
  Status := fun _ _ _ => (none, some (.code n))

/-- A remote end that answers the probe with true and then fails on the spec. -/
def specFailingClient (n : Nat) : statusProtoClient where
  IsStatus := fun _ _ => (some { Implements := true }, none)
  StatusSpec := fun _ _ => (none, some (.code n))
  Status := fun _ _ _ => (some {}, none)

/-- The status-report counterpart of `answeringClient`. -/
def answeringReportClient (flag : Bool) : statusReportProtoClient where
  IsStatusReport := fun _ _ => (some { Implements := flag }, none)
  StatusReportSpec := fun _ _ => (some { Args := [1] }, none)
  StatusReport := fun _ _ _ => (some {}, none)

/-- A caller-side bridge around a remote end. -/
def clientOf (p : statusProtoClient) : statusClient :=
  { Client := p, Logger := 0, Broker := 0, Mappers := [] }

/-- A caller-side status-report bridge around a remote end. -/
def reportClientOf (p : statusReportProtoClient) : statusReportClient :=
  { Client := p, Logger := 0, Broker := 0, Mappers := [] }

/-- An implementation object that has both capabilities. -/
def workingImpl : Option Methods :=
  some { StatusFunc := some (fun _ => some (.provider 1)),
         StatusReportFunc := some (fun _ => some (.provider 2)) }

/-- An implementation object (non-nil) that has neither method. -/
def unrelatedImpl : Option Methods :=
  some { StatusFunc := none, StatusReportFunc := none }

/-- A provider-side status stub around an implementation object. -/
def serverOf (impl : Option Methods) : statusServer :=
  { base := { Logger := 0, Broker := 0, Mappers := [] }, Impl := impl }

/-- A provider-side status-report stub around an implementation object. -/
def reportServerOf (impl : Option Methods) : statusReportServer :=
  { base := { Logger := 0, Broker := 0, Mappers := [] }, Impl := impl }

/-- Helpers whose dynamic call registers the given release actions and ends
with the given error. -/
def helpersWith (rs : List Release) (err : Option GoError) : Helpers where
  funcspecSpec := fun _ _ _ _ _ => (some { Args := [] }, none)
  callDynamicFunc2 := fun _ _ _ _ _ _ => { registered := rs, value := some 42, err := err }

/-- An implementation object that satisfies both contracts and whose methods
return nil. -/
def nilFuncImpl : Option Methods :=
  some { StatusFunc := some (fun _ => none), StatusReportFunc := some (fun _ => none) }

/-- A resolver without converters, direct satisfaction only (spec, sections
4.3 and 8): when every declared type is among the supplied values resolution
succeeds with no converter call; otherwise it fails naming the first missing
type.  A value is identified by its type identifier. -/
def directResolver : Resolver := fun _ spec supplied =>
  match spec with
  | none => { registered := [], result := .failure (.code 0) }
  | some s =>
    match s.Args.find? (fun t => !supplied.contains t) with
    | some t => { registered := [], result := .failure (.code t) }
    | none => { registered := [], result := .ok s.Args }

/-- The initial world: nothing called, nothing allocated. -/
def World.init : World := { trace := [], internals := [], ledgers := [] }

/-! ## Helper lemmas: what one run of each function does -/

/-- Reading a heap at the address just allocated. -/
theorem heap_lookup_fresh {α : Type} (xs : List α) (x : α) :
    (xs ++ [x])[xs.length]? = some x := by
  simp

/-- Writing a heap at the address just allocated. -/
theorem heap_set_fresh {α : Type} (xs : List α) (x y : α) :
    (xs ++ [x]).set xs.length y = xs ++ [y] := by
  induction xs with
  | nil => rfl
  | cons a t ih => simp [ih]

/-- A run of the provider-side `Status` handler when `Impl` satisfies
`component.Status`: return values and final world. -/
theorem statusServer.Status_run (H : Helpers) (s : statusServer) (ctx : Context)
    (args : FuncSpec_Args) (w : World) (d : List Event → Iface)
    (h : assertStatus s.Impl = some d) :
    statusServer.Status H s ctx args w =
      ((match (H.callDynamicFunc2 (w.trace ++ [Event.implStatusFunc]) (d w.trace) args.Args
                s.base.Mappers w.internals.length ctx).err with
        | some err => GoResult.ret (none, some err)
        | none => GoResult.ret (some {}, none)),
       { trace := w.trace ++ [Event.implStatusFunc, Event.callDynamicFunc2 w.internals.length,
                    Event.cleanupClose w.ledgers.length] ++
                  (H.callDynamicFunc2 (w.trace ++ [Event.implStatusFunc]) (d w.trace) args.Args
                    s.base.Mappers w.internals.length ctx).registered.map
                      (fun r => Event.release r.id),
         internals := w.internals ++
           [{ Broker := s.base.Broker, Mappers := s.base.Mappers, Cleanup := w.ledgers.length }],
         ledgers := w.ledgers ++ [{ pending := [] }] }) := by
  simp only [statusServer.Status, statusServer.Status.body, base.internal, World.newCleanup,
    World.newInternal, heap_lookup_fresh, h, World.log, World.registerVia, World.register,
    heap_set_fresh, deferClose]
  cases (H.callDynamicFunc2 (w.trace ++ [Event.implStatusFunc]) (d w.trace) args.Args
      s.base.Mappers w.internals.length ctx).err <;>
    simp [Cleanup.Close, heap_lookup_fresh, heap_set_fresh]

/-- A run of the provider-side `Status` handler when `Impl` does not satisfy
`component.Status`: the type assertion panics, the deferred `Close` still runs. -/
theorem statusServer.Status_run_no_contract (H : Helpers) (s : statusServer) (ctx : Context)
    (args : FuncSpec_Args) (w : World) (h : assertStatus s.Impl = none) :
    statusServer.Status H s ctx args w =
      (GoResult.panic Panic.typeAssertion,
       { trace := w.trace ++ [Event.cleanupClose w.ledgers.length],
         internals := w.internals ++
           [{ Broker := s.base.Broker, Mappers := s.base.Mappers, Cleanup := w.ledgers.length }],
         ledgers := w.ledgers ++ [{ pending := [] }] }) := by
  simp [statusServer.Status, statusServer.Status.body, base.internal, World.newCleanup,
    World.newInternal, heap_lookup_fresh, h, deferClose, Cleanup.Close, heap_set_fresh]

/-- The trace of a run of the caller-side `status` method whose `internal`
argument is a valid pointer: the remote call (when the receiver is non-nil),
then `Close` on the ledger of `internal`, then the release actions. -/
theorem statusClient.status_trace (c : Option statusClient) (ctx : Context) (args : Args)
    (internal : Ptr) (w : World) (i : Internal) (h : w.internals[internal]? = some i) :
    ∃ post, (statusClient.status c ctx args internal w).2.trace =
        w.trace ++ (match c with
                    | none => []
                    | some _ => [Event.rpcStatus ctx args]) ++
          [Event.cleanupClose i.Cleanup] ++ post ∧
      ∀ e ∈ post, e.isRelease = true := by
  cases c with
  | none =>
    cases hl : w.ledgers[i.Cleanup]? with
    | none =>
      exact ⟨[], by simp [statusClient.status, statusClient.status.body, h, deferClose,
        Cleanup.Close, hl, World.log], by simp⟩
    | some l =>
      exact ⟨l.pending.map (fun r => Event.release r.id),
        by simp [statusClient.status, statusClient.status.body, h, deferClose,
          Cleanup.Close, hl], by simp [Event.isRelease]⟩
  | some cc =>
    cases hl : w.ledgers[i.Cleanup]? with
    | none =>
      exact ⟨[], by simp [statusClient.status, statusClient.status.body, h, deferClose,
        Cleanup.Close, hl, World.log], by simp⟩
    | some l =>
      exact ⟨l.pending.map (fun r => Event.release r.id),
        by simp [statusClient.status, statusClient.status.body, h, deferClose,
          Cleanup.Close, hl, World.log], by simp [Event.isRelease]⟩

/-- Registering release actions leaves the trace as it is. -/
theorem World.registerVia_trace (w : World) (internal : Ptr) (rs : List Release) :
    (w.registerVia internal rs).trace = w.trace := by
  unfold World.registerVia World.register
  split
  · rfl
  · split <;> rfl

/-- Registering release actions leaves the heap of `Internal` values as it is. -/
theorem World.registerVia_internals (w : World) (internal : Ptr) (rs : List Release) :
    (w.registerVia internal rs).internals = w.internals := by
  unfold World.registerVia World.register
  split
  · rfl
  · split <;> rfl

/-- An invocation of a wrapper whose argument resolution fails returns that
failure and logs nothing: the callback, and so the remote call and `Close`,
are not reached. -/
theorem FuncspecFunc.invoke_resolution_failure (R : Resolver) (f : FuncspecFunc) (ctx : Context)
    (supplied : Args) (w : World) (err : GoError)
    (h : (R w.trace f.spec supplied).result = .failure err) :
    (f.invoke R ctx supplied w).1 = .ret (some err) ∧
    (f.invoke R ctx supplied w).2.trace = w.trace := by
  simp only [FuncspecFunc.invoke, h, World.registerVia_trace, and_self]

/-- A trace segment made of events that are not `Close` calls, one `Close`
call, and release actions contains exactly one `Close` call. -/
theorem countP_isClose_segment (pre post : List Event) (l : Ptr)
    (hpre : ∀ e ∈ pre, e.isClose = false) (hpost : ∀ e ∈ post, e.isRelease = true) :
    (pre ++ [Event.cleanupClose l] ++ post).countP Event.isClose = 1 := by
  have h1 : pre.countP Event.isClose = 0 := by
    rw [List.countP_eq_zero]
    intro e he
    simp [hpre e he]
  have h2 : post.countP Event.isClose = 0 := by
    rw [List.countP_eq_zero]
    intro e he
    have := hpost e he
    cases e <;> simp_all [Event.isClose, Event.isRelease]
  simp [List.countP_append, h1, h2, Event.isClose]

/-! ## Theorems: caller side -/

/-- C1: on a nil `*statusClient` and on a nil `*statusReportClient`,
`Implements` returns `(false, nil)` for every context and leaves the world
untouched: no remote call is issued. -/
theorem Implements_nil_receiver (ctx : Context) (w : World) :
    statusClient.Implements none ctx w = (.ret (false, none), w) ∧
    statusReportClient.Implements none ctx w = (.ret (false, none), w) :=
  ⟨rfl, rfl⟩

/-- C2: for a non-nil `statusClient` and every outcome of the `IsStatus`
remote call, `Implements` returns a non-nil error exactly when the remote call
returned one, and it is that same error; on success with response `r` it
returns `(r.Implements, nil)`; and `(false, nil)` is returned only when the
remote end answered false without error. -/
theorem Implements_error_iff_transport_error (c : statusClient) (ctx : Context) (w : World) :
    ((∃ b e, (statusClient.Implements (some c) ctx w).1 = .ret (b, some e)) ↔
        (c.Client.IsStatus w.trace ctx).2 ≠ none) ∧
    (∀ e, (c.Client.IsStatus w.trace ctx).2 = some e →
        ∀ b e2, (statusClient.Implements (some c) ctx w).1 = .ret (b, some e2) → e2 = e) ∧
    (∀ e, (c.Client.IsStatus w.trace ctx).2 = some e →
        (statusClient.Implements (some c) ctx w).1 = .ret (false, some e)) ∧
    (∀ r, c.Client.IsStatus w.trace ctx = (some r, none) →
        (statusClient.Implements (some c) ctx w).1 = .ret (r.Implements, none)) ∧
    ((statusClient.Implements (some c) ctx w).1 = .ret (false, none) →
        c.Client.IsStatus w.trace ctx = (some { Implements := false }, none)) := by
  rcases h : c.Client.IsStatus w.trace ctx with ⟨resp, err⟩
  cases err with
  | some e => simp [statusClient.Implements, h]
  | none =>
    cases resp with
    | none => simp [statusClient.Implements, h]
    | some r =>
      obtain ⟨b⟩ := r
      cases b <;> simp [statusClient.Implements, h]

/-- Witness for C2 on a remote end whose probe fails with error 7. -/
theorem Implements_error_iff_transport_error_witness :
    (statusClient.Implements (some (clientOf (brokenClient 7))) Context.background World.init).1
      = .ret (false, some (.code 7)) :=
  (Implements_error_iff_transport_error (clientOf (brokenClient 7)) Context.background
    World.init).2.2.1 (.code 7) rfl

/-- C3: when the probe succeeds with `Implements = false`, `StatusFunc`
returns nil and the only call made is the single probe: neither `StatusSpec`
nor `Status` is issued.  The same holds for `StatusReportFunc`. -/
theorem absent_capability_only_probes :
    (∀ (c : statusClient) (w : World),
      c.Client.IsStatus w.trace Context.background = (some { Implements := false }, none) →
      statusClient.StatusFunc (some c) w
        = (.ret none, { w with trace := w.trace ++ [Event.rpcIsStatus Context.background] })) ∧
    (∀ (c : statusReportClient) (w : World),
      c.Client.IsStatusReport w.trace Context.background
        = (some { Implements := false }, none) →
      statusReportClient.StatusReportFunc (some c) w
        = (.ret none,
           { w with trace := w.trace ++ [Event.rpcIsStatusReport Context.background] })) := by
  constructor
  · intro c w h
    simp [statusClient.StatusFunc, statusClient.Implements, h, World.log]
  · intro c w h
    simp [statusReportClient.StatusReportFunc, statusReportClient.Implements, h, World.log]

/-- Witness for C3 on remote ends that answer the probe with false. -/
theorem absent_capability_only_probes_witness :
    statusClient.StatusFunc (some (clientOf (answeringClient false))) World.init
      = (.ret none, { World.init with trace := [Event.rpcIsStatus Context.background] }) ∧
    statusReportClient.StatusReportFunc (some (reportClientOf (answeringReportClient false)))
        World.init
      = (.ret none, { World.init with trace := [Event.rpcIsStatusReport Context.background] }) :=
  ⟨absent_capability_only_probes.1 (clientOf (answeringClient false)) World.init rfl,
   absent_capability_only_probes.2 (reportClientOf (answeringReportClient false)) World.init rfl⟩

/-- C4: for a non-nil `statusClient`, `StatusFunc` returns nil exactly when
the probe succeeded and answered false.  When the probe fails with error `e`
the result is the non-nil value `funcErr(e)` and the `StatusSpec` call is not
issued (the probe is the only call); when the probe answers true and the
`StatusSpec` call fails with `e` the result is the non-nil value `funcErr(e)`. -/
theorem StatusFunc_nil_iff_probe_false (c : statusClient) (w : World) :
    ((statusClient.StatusFunc (some c) w).1 = .ret none ↔
        c.Client.IsStatus w.trace Context.background = (some { Implements := false }, none)) ∧
    (∀ e, (c.Client.IsStatus w.trace Context.background).2 = some e →
        statusClient.StatusFunc (some c) w
          = (.ret (some (.funcErr e)), w.log (.rpcIsStatus Context.background)) ∧
        (some (FuncValue.funcErr e) : Iface) ≠ none) ∧
    (∀ e, c.Client.IsStatus w.trace Context.background = (some { Implements := true }, none) →
        (c.Client.StatusSpec (w.log (.rpcIsStatus Context.background)).trace
            Context.background).2 = some e →
        statusClient.StatusFunc (some c) w
          = (.ret (some (.funcErr e)),
             (w.log (.rpcIsStatus Context.background)).log (.rpcStatusSpec Context.background)) ∧
        (some (FuncValue.funcErr e) : Iface) ≠ none) := by
  rcases h : c.Client.IsStatus w.trace Context.background with ⟨resp, err⟩
  cases err with
  | some e => simp [statusClient.StatusFunc, statusClient.Implements, h]
  | none =>
    cases resp with
    | none => simp [statusClient.StatusFunc, statusClient.Implements, h]
    | some r =>
      obtain ⟨b⟩ := r
      cases b with
      | false => simp [statusClient.StatusFunc, statusClient.Implements, h]
      | true =>
        cases h2 : (c.Client.StatusSpec (w.log (.rpcIsStatus Context.background)).trace
            Context.background).2 <;>
          simp [statusClient.StatusFunc, statusClient.Implements, h, h2]

/-- Witness for C4: a failing probe, and a failing spec after a true probe. -/
theorem StatusFunc_nil_iff_probe_false_witness :
    statusClient.StatusFunc (some (clientOf (brokenClient 7))) World.init
      = (.ret (some (.funcErr (.code 7))), World.init.log (.rpcIsStatus Context.background)) ∧
    statusClient.StatusFunc (some (clientOf (specFailingClient 9))) World.init
      = (.ret (some (.funcErr (.code 9))),
         (World.init.log (.rpcIsStatus Context.background)).log
           (.rpcStatusSpec Context.background)) :=
  ⟨((StatusFunc_nil_iff_probe_false (clientOf (brokenClient 7)) World.init).2.1
      (.code 7) rfl).1,
   ((StatusFunc_nil_iff_probe_false (clientOf (specFailingClient 9)) World.init).2.2
      (.code 9) rfl rfl).1⟩

/-- C9 fails on the code: the function `f` returned by one call of
`StatusFunc` declares one parameter (type 1); it is invoked twice with that
value supplied, so both resolutions succeed.  Both invocations receive the
same `pluginargs.Internal` (pointer 0) and the same ledger (pointer 0), and
each runs `Close` on that one ledger. -/
theorem invocations_share_one_ledger :
    ∃ f w1,
      statusClient.StatusFunc (some (clientOf (answeringClient true))) World.init
        = (.ret (some (.funcspecFunc f)), w1) ∧
      f.spec = some { Args := [1] } ∧
      f.internal = 0 ∧
      f.ledger w1 = some 0 ∧
      f.ledger (f.invoke directResolver (Context.request 1) [1] w1).2 = some 0 ∧
      (f.invoke directResolver (Context.request 2) [1]
          (f.invoke directResolver (Context.request 1) [1] w1).2).2.trace
        = [Event.rpcIsStatus Context.background, Event.rpcStatusSpec Context.background,
           Event.rpcStatus (Context.request 1) [1], Event.cleanupClose 0,
           Event.rpcStatus (Context.request 2) [1], Event.cleanupClose 0] :=
  ⟨_, _, rfl, rfl, rfl, rfl, rfl, rfl⟩

/-- C9 as amended: a call of `StatusFunc` that returns a `funcspec.Func`
wrapper `f` allocates one new `pluginargs.Internal` holding one new, empty
ledger, both at addresses not in use before the call; every invocation of `f`
whose argument resolution succeeds hands the callback `status` that same
`Internal`, and the `Close` at its end runs on that same ledger; and a wrapper
returned by a later call of `StatusFunc` carries a different `Internal` and a
different ledger. -/
theorem StatusFunc_one_ledger_per_call (c : statusClient) (w w1 : World) (f : FuncspecFunc)
    (h : statusClient.StatusFunc (some c) w = (.ret (some (.funcspecFunc f)), w1)) :
    f.internal = w.internals.length ∧
    w1.internals = w.internals ++
      [{ Broker := c.Broker, Mappers := c.Mappers, Cleanup := w.ledgers.length }] ∧
    w1.ledgers = w.ledgers ++ [{ pending := [] }] ∧
    f.ledger w1 = some w.ledgers.length ∧
    (∀ (R : Resolver) (ctx : Context) (supplied args : Args) (w2 : World),
      (R w2.trace f.spec supplied).result = .ok args →
      f.ledger w2 = some w.ledgers.length →
      f.invoke R ctx supplied w2
        = statusClient.status (some c) ctx args w.internals.length
            (w2.registerVia f.internal (R w2.trace f.spec supplied).registered) ∧
      ∃ post, (f.invoke R ctx supplied w2).2.trace
          = w2.trace ++ [Event.rpcStatus ctx args, Event.cleanupClose w.ledgers.length] ++ post ∧
        ∀ e ∈ post, e.isRelease = true) ∧
    (∀ (w2 w3 : World) (f2 : FuncspecFunc),
      w1.internals.length ≤ w2.internals.length →
      w1.ledgers.length ≤ w2.ledgers.length →
      statusClient.StatusFunc (some c) w2 = (.ret (some (.funcspecFunc f2)), w3) →
      f2.internal ≠ f.internal ∧ f2.ledger w3 ≠ f.ledger w1) := by
  have key : ∀ (u u1 : World) (g : FuncspecFunc),
      statusClient.StatusFunc (some c) u = (.ret (some (.funcspecFunc g)), u1) →
      g.internal = u.internals.length ∧ g.cb = statusClient.status (some c) ∧
      u1.internals = u.internals ++
        [{ Broker := c.Broker, Mappers := c.Mappers, Cleanup := u.ledgers.length }] ∧
      u1.ledgers = u.ledgers ++ [{ pending := [] }] := by
    intro u u1 g hg
    rcases hp : c.Client.IsStatus u.trace Context.background with ⟨resp, err⟩
    cases err with
    | some e => simp [statusClient.StatusFunc, statusClient.Implements, hp] at hg
    | none =>
      cases resp with
      | none => simp [statusClient.StatusFunc, statusClient.Implements, hp] at hg
      | some r =>
        obtain ⟨b⟩ := r
        cases b with
        | false => simp [statusClient.StatusFunc, statusClient.Implements, hp] at hg
        | true =>
          cases hs : (c.Client.StatusSpec (u.trace ++ [Event.rpcIsStatus Context.background])
              Context.background).2 with
          | some e =>
            simp [statusClient.StatusFunc, statusClient.Implements, hp, hs, World.log] at hg
          | none =>
            simp [statusClient.StatusFunc, statusClient.Implements, hp, hs, World.newCleanup,
              World.newInternal, World.log] at hg
            obtain ⟨hf, hw⟩ := hg
            subst hf
            subst hw
            simp
  obtain ⟨hi, hcb, hint, hled⟩ := key w w1 f h
  have hl1 : f.ledger w1 = some w.ledgers.length := by
    simp [FuncspecFunc.ledger, hi, hint]
  refine ⟨hi, hint, hled, hl1, ?_, ?_⟩
  · intro R ctx supplied args w2 hres hl2
    have hinv : f.invoke R ctx supplied w2
        = statusClient.status (some c) ctx args w.internals.length
            (w2.registerVia f.internal (R w2.trace f.spec supplied).registered) := by
      simp only [FuncspecFunc.invoke, hres, hcb, hi]
    simp only [FuncspecFunc.ledger, Option.map_eq_some'] at hl2
    obtain ⟨i, hi2, hic⟩ := hl2
    have hi3 : (w2.registerVia f.internal
        (R w2.trace f.spec supplied).registered).internals[w.internals.length]? = some i := by
      rw [World.registerVia_internals, ← hi]
      exact hi2
    obtain ⟨post, htrace, hpost⟩ :=
      statusClient.status_trace (some c) ctx args w.internals.length
        (w2.registerVia f.internal (R w2.trace f.spec supplied).registered) i hi3
    refine ⟨hinv, post, ?_, hpost⟩
    rw [hinv, htrace, World.registerVia_trace, hic]
    simp
  · intro w2 w3 f2 hlen1 hlen2 h2
    obtain ⟨hi2, _, hint2, _⟩ := key w2 w3 f2 h2
    have hl3 : f2.ledger w3 = some w2.ledgers.length := by
      simp [FuncspecFunc.ledger, hi2, hint2]
    rw [hint] at hlen1
    rw [hled] at hlen2
    simp only [List.length_append, List.length_singleton] at hlen1 hlen2
    constructor
    · rw [hi, hi2]
      exact Nat.ne_of_gt hlen1
    · rw [hl1, hl3]
      intro heq
      injection heq with heq
      exact absurd heq (Nat.ne_of_gt hlen2)

/-- Witness for C9 as amended, on a remote end that has the capability. -/
theorem StatusFunc_one_ledger_per_call_witness :
    ∃ f : FuncspecFunc, f.internal = World.init.internals.length ∧
      f.ledger
        { trace := [Event.rpcIsStatus Context.background, Event.rpcStatusSpec Context.background],
          internals := [{ Broker := 0, Mappers := [], Cleanup := 0 }],
          ledgers := [{ pending := [] }] } = some World.init.ledgers.length :=
  ⟨{ spec := some { Args := [1] },
     cb := statusClient.status (some (clientOf (answeringClient true))),
     logger := 0, internal := 0 },
   (StatusFunc_one_ledger_per_call (clientOf (answeringClient true)) World.init _ _ rfl).1,
   (StatusFunc_one_ledger_per_call (clientOf (answeringClient true)) World.init _ _ rfl).2.2.2.1⟩

/-! ## Theorems: provider side -/

/-- C5: for every held `Impl` (nil and objects without the method included)
`IsStatus` returns a nil error and a response whose flag is true exactly when
`Impl` satisfies `component.Status` and `Impl.StatusFunc()` is non-nil; when
`Impl` does not satisfy the contract the flag is false and `StatusFunc` is not
called (the world is untouched).  The same holds for `IsStatusReport`. -/
theorem IsStatus_flag_iff_function_present :
    (∀ (s : statusServer) (ctx : Context) (e : Empty) (w : World),
      ∃ flag w1, statusServer.IsStatus s ctx e w
          = (.ret (some { Implements := flag }, none), w1) ∧
        (flag = true ↔ ∃ d, assertStatus s.Impl = some d ∧ d w.trace ≠ none) ∧
        (assertStatus s.Impl = none → flag = false ∧ w1 = w)) ∧
    (∀ (s : statusReportServer) (ctx : Context) (e : Empty) (w : World),
      ∃ flag w1, statusReportServer.IsStatusReport s ctx e w
          = (.ret (some { Implements := flag }, none), w1) ∧
        (flag = true ↔ ∃ d, assertStatusReport s.Impl = some d ∧ d w.trace ≠ none) ∧
        (assertStatusReport s.Impl = none → flag = false ∧ w1 = w)) := by
  constructor
  · intro s ctx e w
    cases h : assertStatus s.Impl with
    | none => exact ⟨false, w, by simp [statusServer.IsStatus, h], by simp, by simp⟩
    | some d =>
      refine ⟨(d w.trace).isSome, w.log .implStatusFunc, by simp [statusServer.IsStatus, h],
        ?_, by simp⟩
      cases hd : d w.trace <;> simp [hd]
  · intro s ctx e w
    cases h : assertStatusReport s.Impl with
    | none => exact ⟨false, w, by simp [statusReportServer.IsStatusReport, h], by simp, by simp⟩
    | some d =>
      refine ⟨(d w.trace).isSome, w.log .implStatusReportFunc,
        by simp [statusReportServer.IsStatusReport, h], ?_, by simp⟩
      cases hd : d w.trace <;> simp [hd]

/-- Witness for C5 on a nil `Impl`. -/
theorem IsStatus_flag_iff_function_present_witness :
    ∃ flag w1, statusServer.IsStatus (serverOf none) Context.background {} World.init
        = (.ret (some { Implements := flag }, none), w1) ∧
      (flag = true ↔
        ∃ d, assertStatus (serverOf none).Impl = some d ∧ d World.init.trace ≠ none) ∧
      (assertStatus (serverOf none).Impl = none → flag = false ∧ w1 = World.init) :=
  IsStatus_flag_iff_function_present.1 (serverOf none) Context.background {} World.init

/-- C6: when `Impl` satisfies `component.Status`, the `Status` handler makes
exactly one call of `callDynamicFunc2` and its return values follow that
call's error alone: error `e` gives a nil response and exactly `e`; no error
gives a non-nil empty response and a nil error, whatever value the target
function returned. -/
theorem Status_outcome_is_dynamic_call_error (H : Helpers) (s : statusServer) (ctx : Context)
    (args : FuncSpec_Args) (w : World) (d : List Event → Iface)
    (h : assertStatus s.Impl = some d) :
    (∃ evs, (statusServer.Status H s ctx args w).2.trace = w.trace ++ evs ∧
        evs.countP Event.isDynamicCall = 1) ∧
    (∀ e, (H.callDynamicFunc2 (w.trace ++ [Event.implStatusFunc]) (d w.trace) args.Args
              s.base.Mappers w.internals.length ctx).err = some e →
        (statusServer.Status H s ctx args w).1 = .ret (none, some e)) ∧
    ((H.callDynamicFunc2 (w.trace ++ [Event.implStatusFunc]) (d w.trace) args.Args
              s.base.Mappers w.internals.length ctx).err = none →
        (statusServer.Status H s ctx args w).1 = .ret (some {}, none)) := by
  rw [statusServer.Status_run H s ctx args w d h]
  refine ⟨⟨_, by simp only [List.append_assoc]; rfl, ?_⟩, ?_, ?_⟩
  · simp [List.countP_cons, List.countP_append, List.countP_map, Event.isDynamicCall,
      List.countP_eq_zero]
  · intro e he
    simp [he]
  · intro he
    simp [he]

/-- Witness for C6: a target function that fails with error 3. -/
theorem Status_outcome_is_dynamic_call_error_witness :
    (statusServer.Status (helpersWith [] (some (.code 3))) (serverOf workingImpl)
        Context.background { Args := [] } World.init).1 = .ret (none, some (.code 3)) :=
  (Status_outcome_is_dynamic_call_error (helpersWith [] (some (.code 3))) (serverOf workingImpl)
    Context.background { Args := [] } World.init (fun _ => some (.provider 1)) rfl).2.1
    (.code 3) rfl

/-- C7: in every run of the provider-side `Status` handler and of the
caller-side `status` method, `Close` is called exactly once, on the ledger of
that run's `pluginargs.Internal`, whatever the dynamic call or the remote call
returned (and also when the type assertion panics); the call of `Close` comes
after the dynamic call / remote call, and only release actions follow it. -/
theorem Close_exactly_once_after_the_call :
    (∀ (H : Helpers) (s : statusServer) (ctx : Context) (args : FuncSpec_Args) (w : World),
      ∃ i pre post,
        (s.base.internal w).2.internals[(s.base.internal w).1]? = some i ∧
        (statusServer.Status H s ctx args w).2.trace
          = w.trace ++ (pre ++ [Event.cleanupClose i.Cleanup] ++ post) ∧
        (pre ++ [Event.cleanupClose i.Cleanup] ++ post).countP Event.isClose = 1 ∧
        (∀ e ∈ pre, e.isClose = false) ∧ (∀ e ∈ post, e.isRelease = true) ∧
        (assertStatus s.Impl ≠ none → Event.callDynamicFunc2 (s.base.internal w).1 ∈ pre)) ∧
    (∀ (c : Option statusClient) (ctx : Context) (args : Args) (internal : Ptr) (w : World)
        (i : Internal), w.internals[internal]? = some i →
      ∃ pre post,
        (statusClient.status c ctx args internal w).2.trace
          = w.trace ++ (pre ++ [Event.cleanupClose i.Cleanup] ++ post) ∧
        (pre ++ [Event.cleanupClose i.Cleanup] ++ post).countP Event.isClose = 1 ∧
        (∀ e ∈ pre, e.isClose = false) ∧ (∀ e ∈ post, e.isRelease = true) ∧
        (c ≠ none → Event.rpcStatus ctx args ∈ pre)) := by
  constructor
  · intro H s ctx args w
    cases h : assertStatus s.Impl with
    | none =>
      have hpre : ∀ e ∈ ([] : List Event), e.isClose = false := by simp
      have hpost : ∀ e ∈ ([] : List Event), e.isRelease = true := by simp
      refine ⟨{ Broker := s.base.Broker, Mappers := s.base.Mappers, Cleanup := w.ledgers.length },
        [], [], ?_, ?_, countP_isClose_segment [] [] _ hpre hpost, hpre, hpost, by simp⟩
      · simp [base.internal, World.newCleanup, World.newInternal]
      · rw [statusServer.Status_run_no_contract H s ctx args w h]
        simp
    | some d =>
      have hpre : ∀ e ∈ [Event.implStatusFunc, Event.callDynamicFunc2 w.internals.length],
          e.isClose = false := by simp [Event.isClose]
      have hpost : ∀ e ∈ (H.callDynamicFunc2 (w.trace ++ [Event.implStatusFunc]) (d w.trace)
          args.Args s.base.Mappers w.internals.length ctx).registered.map
            (fun r => Event.release r.id), e.isRelease = true := by simp [Event.isRelease]
      refine ⟨{ Broker := s.base.Broker, Mappers := s.base.Mappers, Cleanup := w.ledgers.length },
        _, _, ?_, ?_, countP_isClose_segment _ _ _ hpre hpost, hpre, hpost, ?_⟩
      · simp [base.internal, World.newCleanup, World.newInternal]
      · rw [statusServer.Status_run H s ctx args w d h]
        simp
      · intro _
        simp [base.internal, World.newCleanup, World.newInternal]
  · intro c ctx args internal w i hi
    obtain ⟨post, htrace, hpost⟩ := statusClient.status_trace c ctx args internal w i hi
    have hpre : ∀ e ∈ (match c with
        | none => []
        | some _ => [Event.rpcStatus ctx args]), e.isClose = false := by
      cases c <;> simp [Event.isClose]
    refine ⟨_, post, ?_, countP_isClose_segment _ _ _ hpre hpost, hpre, hpost, ?_⟩
    · rw [htrace]
      simp
    · cases c <;> simp

/-- Witness for C7: a caller-side run whose remote call fails in transport. -/
theorem Close_exactly_once_after_the_call_witness :
    ∃ pre post,
      (statusClient.status (some (clientOf (brokenClient 7))) Context.background [] 0
          { trace := [], internals := [{ Broker := 0, Mappers := [], Cleanup := 0 }],
            ledgers := [{ pending := [] }] }).2.trace
        = [] ++ (pre ++ [Event.cleanupClose 0] ++ post) ∧
      (pre ++ [Event.cleanupClose 0] ++ post).countP Event.isClose = 1 ∧
      (∀ e ∈ pre, e.isClose = false) ∧ (∀ e ∈ post, e.isRelease = true) ∧
      (some (clientOf (brokenClient 7)) ≠ none → Event.rpcStatus Context.background [] ∈ pre) :=
  Close_exactly_once_after_the_call.2 (some (clientOf (brokenClient 7))) Context.background [] 0
    { trace := [], internals := [{ Broker := 0, Mappers := [], Cleanup := 0 }],
      ledgers := [{ pending := [] }] }
    { Broker := 0, Mappers := [], Cleanup := 0 } rfl

/-- C10 fails on the code: with a nil `Impl`, and with an `Impl` that lacks
the method, `StatusSpec` and `StatusReportSpec` do not return an error: the
single-value type assertion panics before `funcspec.Spec` is reached. -/
theorem StatusSpec_aborts_without_contract :
    statusServer.StatusSpec (helpersWith [] none) (serverOf none) Context.background {}
        World.init = (.panic .typeAssertion, World.init) ∧
    statusServer.StatusSpec (helpersWith [] none) (serverOf unrelatedImpl) Context.background {}
        World.init = (.panic .typeAssertion, World.init) ∧
    statusReportServer.StatusReportSpec (helpersWith [] none) (reportServerOf none)
        Context.background {} World.init = (.panic .typeAssertion, World.init) ∧
    statusReportServer.StatusReportSpec (helpersWith [] none) (reportServerOf unrelatedImpl)
        Context.background {} World.init = (.panic .typeAssertion, World.init) :=
  ⟨rfl, rfl, rfl, rfl⟩

/-- C10 as amended: for every `Impl` that satisfies `component.Status` and
whose `StatusFunc()` returns nil, `StatusSpec` returns a non-nil error and no
spec (it neither panics nor returns a spec); for an `Impl` that does not
satisfy the contract the probe `IsStatus` answers false with no error, which
is what keeps the caller-side bridge from sending `StatusSpec`.  The same
holds for `StatusReportSpec` and `IsStatusReport`. -/
theorem StatusSpec_error_when_function_nil :
    (∀ (H : Helpers) (s : statusServer) (ctx : Context) (e : Empty) (w : World)
        (d : List Event → Iface),
      assertStatus s.Impl = some d → d w.trace = none →
      (statusServer.StatusSpec H s ctx e w).1 = .ret (none, some errSpecInconsistency)) ∧
    (∀ (s : statusServer) (ctx : Context) (e : Empty) (w : World),
      assertStatus s.Impl = none →
      statusServer.IsStatus s ctx e w = (.ret (some { Implements := false }, none), w)) ∧
    (∀ (H : Helpers) (s : statusReportServer) (ctx : Context) (e : Empty) (w : World)
        (d : List Event → Iface),
      assertStatusReport s.Impl = some d → d w.trace = none →
      (statusReportServer.StatusReportSpec H s ctx e w).1
        = .ret (none, some errSpecInconsistency)) ∧
    (∀ (s : statusReportServer) (ctx : Context) (e : Empty) (w : World),
      assertStatusReport s.Impl = none →
      statusReportServer.IsStatusReport s ctx e w
        = (.ret (some { Implements := false }, none), w)) := by
  refine ⟨?_, ?_, ?_, ?_⟩
  · intro H s ctx e w d h hd
    simp [statusServer.StatusSpec, h, hd, funcspec.Spec]
  · intro s ctx e w h
    simp [statusServer.IsStatus, h]
  · intro H s ctx e w d h hd
    simp [statusReportServer.StatusReportSpec, h, hd, funcspec.Spec]
  · intro s ctx e w h
    simp [statusReportServer.IsStatusReport, h]

/-- Witness for C10 as amended, on an `Impl` whose `StatusFunc()` returns nil. -/
theorem StatusSpec_error_when_function_nil_witness :
    (statusServer.StatusSpec (helpersWith [] none) (serverOf nilFuncImpl) Context.background {}
        World.init).1 = .ret (none, some errSpecInconsistency) ∧
    statusServer.IsStatus (serverOf unrelatedImpl) Context.background {} World.init
      = (.ret (some { Implements := false }, none), World.init) :=
  ⟨StatusSpec_error_when_function_nil.1 (helpersWith [] none) (serverOf nilFuncImpl)
      Context.background {} World.init (fun _ => none) rfl rfl,
   StatusSpec_error_when_function_nil.2.1 (serverOf unrelatedImpl) Context.background {}
      World.init rfl⟩

end Plugin
